import Mathlib

/-!
Verification of the Flowgazer nostr client core: a shallow embedding of
the DataStore, ViewState, ProfileFetcher and RelayManager modules,
with theorems about event ingestion, profile replacement, view queries,
profile-batch fetching and the reconnect policy.

JavaScript `Map` and `Set` are modelled as insertion-ordered association
lists and insertion-ordered duplicate-free lists, matching their iteration
semantics.  The external signature verifier (`window.NostrTools.verifyEvent`)
is a parameter `vf : Event → Bool`; the logged-in identity
(`window.nostrAuth?.pubkey`) is a parameter `my : Option String`.
-/

set_option maxRecDepth 20000

/-- A nostr event as delivered on the wire: id, author pubkey, kind
discriminator, unix-seconds timestamp, content, tags, signature. -/
structure Event where
  id : String
  pubkey : String
  kind : Nat
  created_at : Nat
  content : String
  tags : List (List String)
  sig : String
deriving DecidableEq

/-- A stored profile: the metadata map plus the created_at used for
last-write-wins replacement. -/
structure Profile where
  created_at : Nat
  fields : List (String × String)
deriving DecidableEq

/-- Per-target reaction aggregate: reposts (kind 6) and reactions (kind 7). -/
structure ReactionCount where
  reposts : Nat
  reactions : Nat
deriving DecidableEq

/-- Per-tab oldest created_at cursors. -/
structure OldestTimestamps where
  global : Nat
  following : Nat
  myposts : Nat
  likes : Nat
deriving DecidableEq

/-- JS Set.add on an insertion-ordered duplicate-free list. -/
def setAdd (s : List String) (x : String) : List String :=
  if x ∈ s then s else s ++ [x]

/-- JS Map.set on an insertion-ordered association list: replaces in place
if the key is present, otherwise appends. -/
def mapSet {α : Type} (m : List (String × α)) (k : String) (v : α) : List (String × α) :=
  if m.any (fun p => p.1 == k) then
    m.map (fun p => if p.1 == k then (k, v) else p)
  else m ++ [(k, v)]

/-- JS `tags.find(t => t[0] === name)?.[1]`: the second entry of the first
tag whose first entry is the given name. -/
def firstTagVal (tags : List (List String)) (name : String) : Option String :=
  (tags.find? (fun t => t.head? == some name)).bind (fun t => t[1]?)

/-- JS truthiness of a possibly-undefined string (`undefined` and the empty
string are falsy). -/
def jsTruthy : Option String → Bool
  | none => false
  | some s => s != ""

/-- The deduplicating, signature-checked event store (`data-store.js`). -/
structure DataStore where
  events : List (String × Event)
  profiles : List (String × Profile)
  myPostIds : List String
  receivedLikeIds : List String
  followingPubkeys : List String
  likedByMeIds : List String
  reactionCounts : List (String × ReactionCount)
  oldestTimestamps : OldestTimestamps
deriving DecidableEq

/-- Fresh store as built by the DataStore constructor at time now. -/
def initStore (now : Nat) : DataStore :=
  { events := [], profiles := [], myPostIds := [], receivedLikeIds := []
    followingPubkeys := [], likedByMeIds := [], reactionCounts := []
    oldestTimestamps := { global := now, following := now, myposts := now, likes := now } }

/-- DataStore.updateReactionCount: bump the repost/reaction counter of the
event referenced by the first e-tag (skipped when the tag is missing or
falsy). -/
def DataStore.updateReactionCount (s : DataStore) (e : Event) : DataStore :=
  match firstTagVal e.tags "e" with
  | none => s
  | some targetId =>
    if targetId = "" then s
    else
      let counts := (List.lookup targetId s.reactionCounts).getD ⟨0, 0⟩
      let counts :=
        if e.kind = 6 then { counts with reposts := counts.reposts + 1 }
        else if e.kind = 7 then { counts with reactions := counts.reactions + 1 }
        else counts
      { s with reactionCounts := mapSet s.reactionCounts targetId counts }

/-- First classification block: a kind-1 event authored by the logged-in
pubkey is filed into myPostIds. -/
def DataStore.catMyPosts (my : Option String) (s : DataStore) (e : Event) : DataStore :=
  if e.kind = 1 ∧ some e.pubkey = my then
    { s with myPostIds := setAdd s.myPostIds e.id }
  else s

/-- Kind-7 sub-block: a reaction whose first p-tag target equals the
logged-in pubkey is filed into receivedLikeIds (JS
`targetPubkey === myPubkey`, where both sides may be undefined). -/
def DataStore.catReceivedLike (my : Option String) (s : DataStore) (e : Event) : DataStore :=
  if firstTagVal e.tags "p" = my then
    { s with receivedLikeIds := setAdd s.receivedLikeIds e.id }
  else s

/-- Kind-7 sub-block: a reaction authored by the logged-in pubkey records
its truthy first e-tag target into likedByMeIds. -/
def DataStore.catLikedByMe (my : Option String) (s : DataStore) (e : Event) : DataStore :=
  if some e.pubkey = my then
    match firstTagVal e.tags "e" with
    | some targetEventId =>
      if targetEventId ≠ "" then
        { s with likedByMeIds := setAdd s.likedByMeIds targetEventId }
      else s
    | none => s
  else s

/-- DataStore.categorizeEvent: file the event id into the category id-sets
and update reaction aggregates, using the logged-in pubkey my. -/
def DataStore.categorizeEvent (my : Option String) (s : DataStore) (e : Event) : DataStore :=
  let s := s.catMyPosts my e
  let s :=
    if e.kind = 7 then
      (((s.catReceivedLike my e).catLikedByMe my e)).updateReactionCount e
    else s
  if e.kind = 6 then s.updateReactionCount e else s

/-- DataStore.updateOldestTimestamps: lower the per-tab oldest-created_at
cursors for kind 1 and 6 events. -/
def DataStore.updateOldestTimestamps (my : Option String) (s : DataStore) (e : Event) :
    DataStore :=
  if e.kind ≠ 1 ∧ e.kind ≠ 6 then s
  else
    let ts := s.oldestTimestamps
    let ts :=
      if e.created_at < ts.global then { ts with global := e.created_at } else ts
    let ts :=
      if e.pubkey ∈ s.followingPubkeys ∧ e.created_at < ts.following then
        { ts with following := e.created_at }
      else ts
    let ts :=
      if e.kind = 1 ∧ some e.pubkey = my ∧ e.created_at < ts.myposts then
        { ts with myposts := e.created_at }
      else ts
    { s with oldestTimestamps := ts }

/-- DataStore.addEvent: reject on duplicate id or failed signature
verification, otherwise insert, classify and update cursors.  Returns the
accepted flag together with the new store. -/
def DataStore.addEvent (vf : Event → Bool) (my : Option String) (s : DataStore) (e : Event) :
    Bool × DataStore :=
  if (List.lookup e.id s.events).isSome then (false, s)
  else if !(vf e) then (false, s)
  else
    let s := { s with events := s.events ++ [(e.id, e)] }
    let s := s.categorizeEvent my e
    let s := s.updateOldestTimestamps my e
    (true, s)

/-- DataStore.addProfile: last-write-wins by created_at; an incoming profile
not strictly newer than the stored one is discarded. -/
def DataStore.addProfile (s : DataStore) (pk : String) (p : Profile) : Bool × DataStore :=
  match List.lookup pk s.profiles with
  | some existing =>
    if p.created_at ≤ existing.created_at then (false, s)
    else (true, { s with profiles := mapSet s.profiles pk p })
  | none => (true, { s with profiles := mapSet s.profiles pk p })

/-- DataStore.setFollowingList: clear then re-add each pubkey. -/
def DataStore.setFollowingList (s : DataStore) (pks : List String) : DataStore :=
  { s with followingPubkeys := pks.foldl setAdd [] }

/-- DataStore.clear at time now. -/
def DataStore.clearStore (now : Nat) (_s : DataStore) : DataStore :=
  initStore now

/-- DataStore.getReactionCount: stored aggregate or the zero record. -/
def DataStore.getReactionCount (s : DataStore) (eventId : String) : ReactionCount :=
  (List.lookup eventId s.reactionCounts).getD ⟨0, 0⟩

/-- The four timeline tabs. -/
inductive Tab
  | global
  | following
  | myposts
  | likes
deriving DecidableEq

/-- The descending-created_at ordering used by the timeline sorts:
a may precede b when the created_at of b is not larger. -/
def createdGe (a b : Event) : Prop :=
  b.created_at ≤ a.created_at

instance : DecidableRel createdGe := fun a b => Nat.decLe b.created_at a.created_at

instance : IsTotal Event createdGe :=
  ⟨fun a b => (Nat.le_total b.created_at a.created_at).elim Or.inl Or.inr⟩

instance : IsTrans Event createdGe :=
  ⟨fun _ _ _ h₁ h₂ => Nat.le_trans h₂ h₁⟩

/-- The JS stable `sort((a, b) => b.created_at - a.created_at)`, modelled as
a stable insertion sort on the descending ordering. -/
def sortByCreatedDesc (l : List Event) : List Event :=
  List.insertionSort createdGe l

/-- Whether the event carries a client flowgazer tag
(JS `tag[0] === client && tag[1] === flowgazer`). -/
def hasFlowgazerTag (e : Event) : Bool :=
  e.kind == 1 && e.tags.any (fun tag => tag.head? == some "client" && tag[1]? == some "flowgazer")

/-- The candidate event list of DataStore.getEventsByTab before the final
sort: the tab's id list, narrowed by the flowgazer filter, resolved against
the event table (`.map(get).filter(Boolean)`). -/
def DataStore.tabEvents (s : DataStore) (tab : Tab) (flowgazerOnly : Bool) : List Event :=
  let eventIds : List String :=
    match tab with
    | .global =>
      (s.events.map Prod.fst).filter (fun id =>
        ((List.lookup id s.events).map (fun ev => ev.kind == 1 || ev.kind == 6)).getD false)
    | .following =>
      (s.events.map Prod.fst).filter (fun id =>
        ((List.lookup id s.events).map (fun ev =>
          (ev.kind == 1 || ev.kind == 6) && s.followingPubkeys.contains ev.pubkey)).getD false)
    | .myposts => s.myPostIds
    | .likes => s.receivedLikeIds
  let eventIds :=
    if flowgazerOnly && tab ≠ Tab.likes then
      eventIds.filter (fun id =>
        ((List.lookup id s.events).map hasFlowgazerTag).getD false)
    else eventIds
  eventIds.filterMap (fun id => List.lookup id s.events)

/-- DataStore.getEventsByTab: candidate events sorted descending by
created_at (stable). -/
def DataStore.getEventsByTab (s : DataStore) (tab : Tab) (flowgazerOnly : Bool) : List Event :=
  sortByCreatedDesc (s.tabEvents tab flowgazerOnly)

/-- A DataStore operation, for reasoning about reachable stores. -/
inductive DSOp
  | addEv (e : Event)
  | addProf (pk : String) (p : Profile)
  | setFollowing (pks : List String)
  | clearOp (now : Nat)

/-- Apply one DataStore operation. -/
def applyDSOp (vf : Event → Bool) (my : Option String) (s : DataStore) : DSOp → DataStore
  | .addEv e => (s.addEvent vf my e).2
  | .addProf pk p => (s.addProfile pk p).2
  | .setFollowing pks => s.setFollowingList pks
  | .clearOp now => s.clearStore now

/-- Run a list of DataStore operations. -/
def runDS (vf : Event → Bool) (my : Option String) (s : DataStore) : List DSOp → DataStore
  | [] => s
  | op :: ops => runDS vf my (applyDSOp vf my s op) ops

/-- Query options of ViewState.getVisibleEvents (`filterOptions`). -/
structure FilterOptions where
  flowgazerOnly : Bool
  authors : Option (List String)
deriving DecidableEq

/-- The default filterOptions: no narrowing. -/
def defaultFilterOptions : FilterOptions :=
  { flowgazerOnly := false, authors := none }

/-- The view-routing state (`view-state.js`): per-tab visible id sets plus
the pending set of events whose author profile has not arrived. -/
structure ViewState where
  globalIds : List String
  followingIds : List String
  mypostsIds : List String
  likesIds : List String
  pendingEventIds : List String
deriving DecidableEq

/-- Fresh ViewState as built by its constructor. -/
def initViewState : ViewState :=
  { globalIds := [], followingIds := [], mypostsIds := [], likesIds := []
    pendingEventIds := [] }

/-- The id set a tab displays. -/
def ViewState.viewSet (vs : ViewState) : Tab → List String
  | .global => vs.globalIds
  | .following => vs.followingIds
  | .myposts => vs.mypostsIds
  | .likes => vs.likesIds

/-- Add an id to one tab's visible set. -/
def ViewState.addToTab (vs : ViewState) (tab : Tab) (id : String) : ViewState :=
  match tab with
  | .global => { vs with globalIds := setAdd vs.globalIds id }
  | .following => { vs with followingIds := setAdd vs.followingIds id }
  | .myposts => { vs with mypostsIds := setAdd vs.mypostsIds id }
  | .likes => { vs with likesIds := setAdd vs.likesIds id }

/-- ViewState.determineTargetTabs: which tabs the event belongs to, from its
kind, author, the follow list and its p-tag target. -/
def determineTargetTabs (my : Option String) (followingPubkeys : List String) (e : Event) :
    List Tab :=
  (if e.kind = 1 ∨ e.kind = 6 then [Tab.global] else []) ++
  (if (e.kind = 1 ∨ e.kind = 6) ∧ e.pubkey ∈ followingPubkeys then [Tab.following] else []) ++
  (if e.kind = 1 ∧ some e.pubkey = my then [Tab.myposts] else []) ++
  (if e.kind = 7 ∧ firstTagVal e.tags "p" = my then [Tab.likes] else [])

/-- ViewState.addEvent: file the id into each target tab's set, and into the
pending set when the author's profile is absent from the store. -/
def ViewState.addEvent (vs : ViewState) (ds : DataStore) (my : Option String) (e : Event) :
    ViewState :=
  let targetTabs := determineTargetTabs my ds.followingPubkeys e
  let vs := targetTabs.foldl (fun vs tab => vs.addToTab tab e.id) vs
  if (List.lookup e.pubkey ds.profiles).isNone then
    { vs with pendingEventIds := setAdd vs.pendingEventIds e.id }
  else vs

/-- Whether a pending id resolves, in the store, to an event authored by pk
(JS `event?.pubkey === pubkey`). -/
def pendingMatches (ds : DataStore) (pk : String) (id : String) : Bool :=
  ((List.lookup id ds.events).map (fun ev => ev.pubkey == pk)).getD false

/-- ViewState.onProfileFetched: drop from the pending set every id whose
stored event is authored by pk; the flag reports whether any was removed
(and hence whether a render is scheduled). -/
def ViewState.onProfileFetched (vs : ViewState) (ds : DataStore) (pk : String) :
    ViewState × Bool :=
  let eventsToRemove := vs.pendingEventIds.filter (pendingMatches ds pk)
  ({ vs with pendingEventIds := vs.pendingEventIds.filter (fun id => !(pendingMatches ds pk id)) },
   !(eventsToRemove.isEmpty))

/-- The candidate event list of ViewState.getVisibleEvents before the final
sort: the tab's visible ids resolved against the store, narrowed by the
flowgazer filter, the author allow-list and profile presence. -/
def ViewState.visCandidates (vs : ViewState) (ds : DataStore) (tab : Tab)
    (opts : FilterOptions) : List Event :=
  let events := (vs.viewSet tab).filterMap (fun id => List.lookup id ds.events)
  let events :=
    if opts.flowgazerOnly && tab ≠ Tab.likes then events.filter hasFlowgazerTag else events
  let events :=
    match opts.authors with
    | some authors =>
      if authors.length > 0 then events.filter (fun (ev : Event) => authors.contains ev.pubkey)
      else events
    | none => events
  events.filter (fun ev => (List.lookup ev.pubkey ds.profiles).isSome)

/-- ViewState.getVisibleEvents: candidates sorted descending by created_at
(stable). -/
def ViewState.getVisibleEvents (vs : ViewState) (ds : DataStore) (tab : Tab)
    (opts : FilterOptions) : List Event :=
  sortByCreatedDesc (vs.visCandidates ds tab opts)

/-- A relay subscription filter as issued by ProfileFetcher.flush
(`kinds: [0], authors: pubkeys`). -/
structure ProfileFilter where
  kinds : List Nat
  authors : List String
deriving DecidableEq

/-- The profile batch fetcher (`profile-fetcher.js`): pending queue,
in-flight set and the single debounce timer. -/
structure ProfileFetcher where
  queue : List String
  inProgress : List String
  timerSet : Bool
deriving DecidableEq

/-- ProfileFetcher constructor state. -/
def initProfileFetcher : ProfileFetcher :=
  { queue := [], inProgress := [], timerSet := false }

/-- ProfileFetcher.maxBatchSize. -/
def maxBatchSize : Nat := 100

/-- ProfileFetcher.batchDelay in milliseconds. -/
def batchDelay : Nat := 500

/-- ProfileFetcher.request: no-op when the profile is already stored or the
pubkey is in flight; otherwise enqueue and (re)schedule the debounced
flush. -/
def ProfileFetcher.request (pf : ProfileFetcher) (ds : DataStore) (pk : String) :
    ProfileFetcher :=
  if (List.lookup pk ds.profiles).isSome then pf
  else if pk ∈ pf.inProgress then pf
  else { pf with queue := setAdd pf.queue pk, timerSet := true }

/-- ProfileFetcher.flush: no-op on an empty queue; otherwise take the first
maxBatchSize queued keys, clear the whole queue, mark the taken keys
in flight and issue one kind-0 subscription for exactly those keys. -/
def ProfileFetcher.flush (pf : ProfileFetcher) : ProfileFetcher × List ProfileFilter :=
  if pf.queue.isEmpty then (pf, [])
  else
    let pubkeys := pf.queue.take maxBatchSize
    ({ pf with queue := [], inProgress := pubkeys.foldl setAdd pf.inProgress },
     [{ kinds := [0], authors := pubkeys }])

/-- The debounce timer firing: consumes the pending timer and runs flush. -/
def ProfileFetcher.fireTimer (pf : ProfileFetcher) : ProfileFetcher × List ProfileFilter :=
  if pf.timerSet then ProfileFetcher.flush { pf with timerSet := false }
  else (pf, [])

/-- WebSocket readiness as seen by RelayManager. -/
inductive WsReadyState
  | connecting
  | openWs
  | closedWs
deriving DecidableEq

/-- Externally visible effects of the RelayManager callbacks: settling the
connect promise, scheduling a delayed reconnect, and closing the socket. -/
inductive RMAct
  | resolveConnect
  | rejectConnect
  | scheduleReconnect (delayMs : Nat)
  | wsClose
deriving DecidableEq

/-- The relay connection manager state (`relay-manager.js`), restricted to
the fields the connect/reconnect machinery reads. -/
structure RelayManager where
  reconnectAttempts : Nat
  isConnecting : Bool
  wsState : Option WsReadyState
  url : Option String
deriving DecidableEq

/-- RelayManager.maxReconnectAttempts. -/
def maxReconnectAttempts : Nat := 3

/-- RelayManager constructor state. -/
def initRelayManager : RelayManager :=
  { reconnectAttempts := 0, isConnecting := false, wsState := none, url := none }

/-- RelayManager.attemptReconnect: below the cap, bump the counter and
schedule a reconnect after min(1000 * 2 ^ attempts, 10000) ms computed from
the already-incremented counter; at the cap, do nothing. -/
def RelayManager.attemptReconnect (m : RelayManager) : RelayManager × List RMAct :=
  if m.reconnectAttempts ≥ maxReconnectAttempts then (m, [])
  else
    let attempts := m.reconnectAttempts + 1
    ({ m with reconnectAttempts := attempts },
     [RMAct.scheduleReconnect (min (1000 * 2 ^ attempts) 10000)])

/-- Entering connect(url) on a manager with no live socket: record the url,
mark connecting, create the socket. -/
def RelayManager.connectStart (m : RelayManager) (u : String) : RelayManager :=
  { m with url := some u, isConnecting := true, wsState := some WsReadyState.connecting }

/-- The ws.onopen callback: mark connected, reset the attempt counter,
resolve the connect promise. -/
def RelayManager.onOpen (m : RelayManager) : RelayManager × List RMAct :=
  ({ m with isConnecting := false, reconnectAttempts := 0, wsState := some WsReadyState.openWs },
   [RMAct.resolveConnect])

/-- The ws.onerror callback: reject the connect promise. -/
def RelayManager.onError (m : RelayManager) : RelayManager × List RMAct :=
  ({ m with isConnecting := false }, [RMAct.rejectConnect])

/-- The ws.onclose callback: unconditionally run attemptReconnect. -/
def RelayManager.onClose (m : RelayManager) : RelayManager × List RMAct :=
  RelayManager.attemptReconnect
    { m with isConnecting := false, wsState := some WsReadyState.closedWs }

/-- The 5-second connect timeout callback: when the socket is not open,
close it and reject the connect promise. -/
def RelayManager.onConnectTimeout (m : RelayManager) : RelayManager × List RMAct :=
  if m.wsState = some WsReadyState.openWs then (m, [])
  else (m, [RMAct.wsClose, RMAct.rejectConnect])

/-- The events the environment can deliver to a connecting or connected
manager.  A closeEvt follows every handshake failure and every wsClose
(WebSocket semantics: a failed or aborted connection fires close). -/
inductive WsEvent
  | openEvt
  | errorEvt
  | closeEvt
  | timeoutFire
deriving DecidableEq

/-- Dispatch one socket event to the registered callback. -/
def RelayManager.stepEvent (m : RelayManager) : WsEvent → RelayManager × List RMAct
  | .openEvt => m.onOpen
  | .errorEvt => m.onError
  | .closeEvt => m.onClose
  | .timeoutFire => m.onConnectTimeout

/-- Run a sequence of socket events, collecting all emitted actions. -/
def RelayManager.runEvents (m : RelayManager) : List WsEvent → RelayManager × List RMAct
  | [] => (m, [])
  | ev :: evs =>
    let (m₁, acts₁) := m.stepEvent ev
    let (m₂, acts₂) := m₁.runEvents evs
    (m₂, acts₁ ++ acts₂)

/-- The reconnect delays scheduled by n consecutive unexpected closes. -/
def closeDelays (m : RelayManager) : Nat → List Nat
  | 0 => []
  | n + 1 =>
    let (m₁, acts) := m.onClose
    acts.filterMap (fun a =>
      match a with
      | RMAct.scheduleReconnect d => some d
      | _ => none) ++ closeDelays m₁ n

/-! ### Helper lemmas -/

theorem lookup_mem {α : Type} {k : String} {v : α} :
    ∀ {l : List (String × α)}, List.lookup k l = some v → (k, v) ∈ l := by
  intro l h
  induction l with
  | nil => simp [List.lookup] at h
  | cons p l ih =>
    obtain ⟨k₁, v₁⟩ := p
    rw [List.lookup] at h
    by_cases hk : (k == k₁) = true
    · simp only [hk] at h
      obtain rfl : v₁ = v := by simpa using h
      have hk2 : k = k₁ := by simpa using hk
      subst hk2
      exact List.mem_cons_self _ _
    · rw [Bool.not_eq_true] at hk
      simp only [hk] at h
      exact List.mem_cons_of_mem _ (ih h)

theorem lookup_append_self {α : Type} (k : String) (v : α) :
    ∀ (l : List (String × α)), (List.lookup k (l ++ [(k, v)])).isSome = true := by
  intro l
  induction l with
  | nil => simp [List.lookup]
  | cons p l ih =>
    rw [List.cons_append, List.lookup]
    by_cases hk : (k == p.1) = true
    · simp [hk]
    · rw [Bool.not_eq_true] at hk
      simp only [hk]
      exact ih

theorem updateReactionCount_events (s : DataStore) (e : Event) :
    (s.updateReactionCount e).events = s.events := by
  unfold DataStore.updateReactionCount
  rcases firstTagVal e.tags "e" with _ | t
  · rfl
  · dsimp only
    split <;> rfl

theorem catMyPosts_events (my : Option String) (s : DataStore) (e : Event) :
    (s.catMyPosts my e).events = s.events := by
  unfold DataStore.catMyPosts
  split_ifs <;> rfl

theorem catReceivedLike_events (my : Option String) (s : DataStore) (e : Event) :
    (s.catReceivedLike my e).events = s.events := by
  unfold DataStore.catReceivedLike
  split_ifs <;> rfl

theorem catLikedByMe_events (my : Option String) (s : DataStore) (e : Event) :
    (s.catLikedByMe my e).events = s.events := by
  unfold DataStore.catLikedByMe
  split_ifs
  · rcases firstTagVal e.tags "e" with _ | t
    · rfl
    · dsimp only
      split_ifs <;> rfl
  · rfl

theorem categorizeEvent_events (my : Option String) (s : DataStore) (e : Event) :
    (s.categorizeEvent my e).events = s.events := by
  unfold DataStore.categorizeEvent
  dsimp only
  split_ifs <;>
    simp [updateReactionCount_events, catLikedByMe_events, catReceivedLike_events,
      catMyPosts_events]

theorem updateOldestTimestamps_events (my : Option String) (s : DataStore) (e : Event) :
    (s.updateOldestTimestamps my e).events = s.events := by
  unfold DataStore.updateOldestTimestamps
  split_ifs <;> rfl

theorem updateReactionCount_profiles (s : DataStore) (e : Event) :
    (s.updateReactionCount e).profiles = s.profiles := by
  unfold DataStore.updateReactionCount
  rcases firstTagVal e.tags "e" with _ | t
  · rfl
  · dsimp only
    split <;> rfl

theorem catMyPosts_profiles (my : Option String) (s : DataStore) (e : Event) :
    (s.catMyPosts my e).profiles = s.profiles := by
  unfold DataStore.catMyPosts
  split_ifs <;> rfl

theorem catReceivedLike_profiles (my : Option String) (s : DataStore) (e : Event) :
    (s.catReceivedLike my e).profiles = s.profiles := by
  unfold DataStore.catReceivedLike
  split_ifs <;> rfl

theorem catLikedByMe_profiles (my : Option String) (s : DataStore) (e : Event) :
    (s.catLikedByMe my e).profiles = s.profiles := by
  unfold DataStore.catLikedByMe
  split_ifs
  · rcases firstTagVal e.tags "e" with _ | t
    · rfl
    · dsimp only
      split_ifs <;> rfl
  · rfl

theorem categorizeEvent_profiles (my : Option String) (s : DataStore) (e : Event) :
    (s.categorizeEvent my e).profiles = s.profiles := by
  unfold DataStore.categorizeEvent
  dsimp only
  split_ifs <;>
    simp [updateReactionCount_profiles, catLikedByMe_profiles, catReceivedLike_profiles,
      catMyPosts_profiles]

theorem updateOldestTimestamps_profiles (my : Option String) (s : DataStore) (e : Event) :
    (s.updateOldestTimestamps my e).profiles = s.profiles := by
  unfold DataStore.updateOldestTimestamps
  split_ifs <;> rfl

theorem addEvent_events_accepted (vf : Event → Bool) (my : Option String) (s : DataStore)
    (e : Event) (hdup : List.lookup e.id s.events = none) (hvf : vf e = true) :
    (s.addEvent vf my e).1 = true ∧
      (s.addEvent vf my e).2.events = s.events ++ [(e.id, e)] := by
  unfold DataStore.addEvent
  rw [hdup]
  simp only [Option.isSome_none, Bool.false_eq_true, if_false, hvf, Bool.not_true,
    updateOldestTimestamps_events, categorizeEvent_events]
  exact ⟨trivial, trivial⟩

theorem lookup_map_replace {α : Type} (k : String) (v : α) :
    ∀ (m : List (String × α)), m.any (fun p => p.1 == k) = true →
      List.lookup k (m.map (fun p => if p.1 == k then (k, v) else p)) = some v := by
  intro m
  induction m with
  | nil => intro h; simp at h
  | cons p m ih =>
    intro h
    rw [List.map_cons, List.lookup]
    by_cases hp : p.1 = k
    · simp [hp]
    · have hp2 : (p.1 == k) = false := beq_eq_false_iff_ne.mpr hp
      have hk2 : (k == p.1) = false := beq_eq_false_iff_ne.mpr (Ne.symm hp)
      simp only [List.any_cons, hp2, Bool.false_or] at h
      simp only [hp2, Bool.false_eq_true, if_false, hk2]
      exact ih h

theorem lookup_append_single {α : Type} (k : String) (v : α) :
    ∀ (m : List (String × α)), m.any (fun p => p.1 == k) = false →
      List.lookup k (m ++ [(k, v)]) = some v := by
  intro m
  induction m with
  | nil => simp [List.lookup]
  | cons p m ih =>
    intro h
    simp only [List.any_cons, Bool.or_eq_false_iff] at h
    obtain ⟨hp, hm⟩ := h
    have hk2 : (k == p.1) = false := by
      rw [beq_eq_false_iff_ne] at hp ⊢
      exact Ne.symm hp
    rw [List.cons_append, List.lookup]
    simp only [hk2]
    exact ih hm

theorem lookup_mapSet {α : Type} (k : String) (v : α) (m : List (String × α)) :
    List.lookup k (mapSet m k v) = some v := by
  unfold mapSet
  by_cases h : m.any (fun p => p.1 == k) = true
  · simp only [h, if_true]
    exact lookup_map_replace k v m h
  · rw [Bool.not_eq_true] at h
    simp only [h, Bool.false_eq_true, if_false]
    exact lookup_append_single k v m h

theorem mem_keys_mapSet {α : Type} (m : List (String × α)) (k : String) (v : α) (k₂ : String)
    (h : k₂ ∈ (mapSet m k v).map Prod.fst) : k₂ ∈ m.map Prod.fst ∨ k₂ = k := by
  unfold mapSet at h
  by_cases ha : m.any (fun p => p.1 == k) = true
  · simp only [ha, if_true] at h
    rw [List.map_map] at h
    obtain ⟨p, hp, hpk⟩ := List.mem_map.mp h
    by_cases hpq : (p.1 == k) = true
    · right
      simp only [Function.comp, hpq, if_true] at hpk
      exact hpk.symm
    · left
      rw [Bool.not_eq_true] at hpq
      simp only [Function.comp, hpq, Bool.false_eq_true, if_false] at hpk
      exact List.mem_map.mpr ⟨p, hp, hpk⟩
  · rw [Bool.not_eq_true] at ha
    simp only [ha, Bool.false_eq_true, if_false, List.map_append] at h
    rcases List.mem_append.mp h with h2 | h2
    · exact Or.inl h2
    · right
      simpa using h2

theorem updateReactionCount_rc_keys (s : DataStore) (e : Event) (tid : String)
    (h : tid ∈ (s.updateReactionCount e).reactionCounts.map Prod.fst) :
    tid ∈ s.reactionCounts.map Prod.fst ∨ firstTagVal e.tags "e" = some tid := by
  unfold DataStore.updateReactionCount at h
  rcases hft : firstTagVal e.tags "e" with _ | t
  · rw [hft] at h
    exact Or.inl h
  · rw [hft] at h
    dsimp only at h
    by_cases ht : t = ""
    · rw [if_pos ht] at h
      exact Or.inl h
    · rw [if_neg ht] at h
      rcases mem_keys_mapSet _ _ _ _ h with h2 | h2
      · exact Or.inl h2
      · right
        rw [h2]

theorem catMyPosts_rc (my : Option String) (s : DataStore) (e : Event) :
    (s.catMyPosts my e).reactionCounts = s.reactionCounts := by
  unfold DataStore.catMyPosts
  split_ifs <;> rfl

theorem catReceivedLike_rc (my : Option String) (s : DataStore) (e : Event) :
    (s.catReceivedLike my e).reactionCounts = s.reactionCounts := by
  unfold DataStore.catReceivedLike
  split_ifs <;> rfl

theorem catLikedByMe_rc (my : Option String) (s : DataStore) (e : Event) :
    (s.catLikedByMe my e).reactionCounts = s.reactionCounts := by
  unfold DataStore.catLikedByMe
  split_ifs
  · rcases firstTagVal e.tags "e" with _ | t
    · rfl
    · dsimp only
      split_ifs <;> rfl
  · rfl

theorem updateOldestTimestamps_rc (my : Option String) (s : DataStore) (e : Event) :
    (s.updateOldestTimestamps my e).reactionCounts = s.reactionCounts := by
  unfold DataStore.updateOldestTimestamps
  split_ifs <;> rfl

theorem categorizeEvent_rc_keys (my : Option String) (s : DataStore) (e : Event) (tid : String)
    (h : tid ∈ (s.categorizeEvent my e).reactionCounts.map Prod.fst) :
    tid ∈ s.reactionCounts.map Prod.fst ∨
      ((e.kind = 6 ∨ e.kind = 7) ∧ firstTagVal e.tags "e" = some tid) := by
  unfold DataStore.categorizeEvent at h
  dsimp only at h
  by_cases h6 : e.kind = 6
  · rw [if_pos h6] at h
    rcases updateReactionCount_rc_keys _ _ _ h with h2 | h2
    · have h7 : ¬ e.kind = 7 := by rw [h6]; decide
      rw [if_neg h7, catMyPosts_rc] at h2
      exact Or.inl h2
    · exact Or.inr ⟨Or.inl h6, h2⟩
  · rw [if_neg h6] at h
    by_cases h7 : e.kind = 7
    · rw [if_pos h7] at h
      rcases updateReactionCount_rc_keys _ _ _ h with h2 | h2
      · rw [catLikedByMe_rc, catReceivedLike_rc, catMyPosts_rc] at h2
        exact Or.inl h2
      · exact Or.inr ⟨Or.inr h7, h2⟩
    · rw [if_neg h7, catMyPosts_rc] at h
      exact Or.inl h

theorem addProfile_events (s : DataStore) (pk : String) (p : Profile) :
    (s.addProfile pk p).2.events = s.events := by
  unfold DataStore.addProfile
  rcases List.lookup pk s.profiles with _ | q
  · rfl
  · dsimp only
    split_ifs <;> rfl

theorem addProfile_rc (s : DataStore) (pk : String) (p : Profile) :
    (s.addProfile pk p).2.reactionCounts = s.reactionCounts := by
  unfold DataStore.addProfile
  rcases List.lookup pk s.profiles with _ | q
  · rfl
  · dsimp only
    split_ifs <;> rfl

theorem addEvent_reject (vf : Event → Bool) (my : Option String) (s : DataStore) (e : Event)
    (h : (List.lookup e.id s.events).isSome = true ∨ vf e = false) :
    s.addEvent vf my e = (false, s) := by
  unfold DataStore.addEvent
  rcases h with h | h
  · simp [h]
  · simp [h]

theorem runDS_events_verified (vf : Event → Bool) (my : Option String) :
    ∀ (ops : List DSOp) (s : DataStore), (∀ p ∈ s.events, vf p.2 = true) →
      ∀ p ∈ (runDS vf my s ops).events, vf p.2 = true := by
  intro ops
  induction ops with
  | nil => intro s h; exact h
  | cons op ops ih =>
    intro s h
    refine ih _ ?_
    cases op with
    | addEv e =>
      dsimp [applyDSOp]
      unfold DataStore.addEvent
      by_cases h1 : (List.lookup e.id s.events).isSome = true
      · simpa [h1] using h
      · by_cases h2 : vf e = true
        · rw [if_neg h1, if_neg (by simp [h2])]
          dsimp only
          rw [updateOldestTimestamps_events, categorizeEvent_events]
          intro p hp
          rcases List.mem_append.mp hp with hp | hp
          · exact h p hp
          · obtain rfl : p = (e.id, e) := by simpa using hp
            exact h2
        · rw [Bool.not_eq_true] at h2
          simpa [h1, h2] using h
    | addProf pk p =>
      intro q hq
      dsimp [applyDSOp] at hq
      rw [addProfile_events] at hq
      exact h q hq
    | setFollowing pks =>
      intro q hq
      exact h q hq
    | clearOp now =>
      intro q hq
      simp [applyDSOp, DataStore.clearStore, initStore] at hq

/-- Every key of the reactionCounts map was put there by a stored kind-6 or
kind-7 event whose first e-tag names that key. -/
def reactionCovered (s : DataStore) : Prop :=
  ∀ tid ∈ s.reactionCounts.map Prod.fst,
    ∃ p ∈ s.events, (p.2.kind = 6 ∨ p.2.kind = 7) ∧ firstTagVal p.2.tags "e" = some tid

theorem applyDSOp_reactionCovered (vf : Event → Bool) (my : Option String) (s : DataStore)
    (op : DSOp) (h : reactionCovered s) : reactionCovered (applyDSOp vf my s op) := by
  cases op with
  | addEv e =>
    dsimp [applyDSOp]
    unfold DataStore.addEvent
    by_cases h1 : (List.lookup e.id s.events).isSome = true
    · simpa [h1] using h
    · by_cases h2 : vf e = true
      · rw [if_neg h1, if_neg (by simp [h2])]
        dsimp only
        intro tid htid
        rw [updateOldestTimestamps_rc] at htid
        rcases categorizeEvent_rc_keys my _ e tid htid with hk | ⟨hkind, htag⟩
        · obtain ⟨p, hp, hprop⟩ := h tid hk
          refine ⟨p, ?_, hprop⟩
          rw [updateOldestTimestamps_events, categorizeEvent_events]
          exact List.mem_append_left _ hp
        · refine ⟨(e.id, e), ?_, hkind, htag⟩
          rw [updateOldestTimestamps_events, categorizeEvent_events]
          exact List.mem_append_right _ (by simp)
      · rw [Bool.not_eq_true] at h2
        simpa [h1, h2] using h
  | addProf pk p =>
    intro tid htid
    dsimp [applyDSOp] at htid
    rw [addProfile_rc] at htid
    obtain ⟨q, hq, hprop⟩ := h tid htid
    refine ⟨q, ?_, hprop⟩
    dsimp [applyDSOp]
    rw [addProfile_events]
    exact hq
  | setFollowing pks =>
    intro tid htid
    exact h tid htid
  | clearOp now =>
    intro tid htid
    simp [applyDSOp, DataStore.clearStore, initStore] at htid

theorem runDS_reactionCovered (vf : Event → Bool) (my : Option String) :
    ∀ (ops : List DSOp) (s : DataStore), reactionCovered s →
      reactionCovered (runDS vf my s ops) := by
  intro ops
  induction ops with
  | nil => intro s h; exact h
  | cons op ops ih => intro s h; exact ih _ (applyDSOp_reactionCovered vf my s op h)

/-! ### Sample data for witnesses -/

/-- A verifier accepting every event (a correct verifier on validly signed
events). -/
def sampleVerifyTrue : Event → Bool := fun _ => true

/-- A verifier rejecting every event (a correct verifier on events whose
signature is invalid). -/
def sampleVerifyFalse : Event → Bool := fun _ => false

/-- A concrete kind-1 note. -/
def sampleEvent1 : Event :=
  { id := "id1", pubkey := "alice", kind := 1, created_at := 100, content := "hello",
    tags := [], sig := "sig1" }

/-- A concrete profile with created_at 50. -/
def sampleProfile50 : Profile := { created_at := 50, fields := [("name", "alice")] }

/-- A concrete profile with created_at 60. -/
def sampleProfile60 : Profile := { created_at := 60, fields := [] }

/-- A store already holding a profile for alice. -/
def sampleStoreP : DataStore := ((initStore 0).addProfile "alice" sampleProfile50).2

/-! ### Claim theorems -/

/-- Claim C4: for every event whose id is already stored or whose signature
verification fails, addEvent returns false without mutating any store state
(the whole store is returned unchanged), and on every reachable store each
stored event passed signature verification, so an invalid-signature event
never appears in the events table. -/
theorem addEvent_rejects_without_mutation :
    (∀ (vf : Event → Bool) (my : Option String) (s : DataStore) (e : Event),
        (List.lookup e.id s.events).isSome = true ∨ vf e = false →
        s.addEvent vf my e = (false, s)) ∧
    (∀ (vf : Event → Bool) (my : Option String) (now : Nat) (ops : List DSOp),
        ∀ p ∈ (runDS vf my (initStore now) ops).events, vf p.2 = true) := by
  constructor
  · exact fun vf my s e h => addEvent_reject vf my s e h
  · intro vf my now ops
    refine runDS_events_verified vf my ops (initStore now) ?_
    intro p hp
    simp [initStore] at hp

/-- Witness for C4: a failing verifier leads to rejection without mutation,
and on a store built by one accepted insertion the stored event verifies. -/
theorem addEvent_rejects_without_mutation_witness :
    DataStore.addEvent sampleVerifyFalse none (initStore 0) sampleEvent1 =
      (false, initStore 0) ∧
    sampleVerifyTrue sampleEvent1 = true :=
  ⟨addEvent_rejects_without_mutation.1 sampleVerifyFalse none (initStore 0) sampleEvent1
      (Or.inr rfl),
   addEvent_rejects_without_mutation.2 sampleVerifyTrue none 0 [DSOp.addEv sampleEvent1]
      ("id1", sampleEvent1) (by decide)⟩

/-- Claim C5 counterexample: for an event whose signature verification
fails, two successive addEvent calls leave the store size unchanged — the
increase is zero, not one, refuting the claim for arbitrary events. -/
theorem addEvent_twice_counterexample :
    ((DataStore.addEvent sampleVerifyFalse none
        ((DataStore.addEvent sampleVerifyFalse none (initStore 0) sampleEvent1).2)
        sampleEvent1).2).events.length ≠ (initStore 0).events.length + 1 := by
  decide

/-- Claim C5 amended: for an event that passes signature verification and
whose id is not yet stored, two successive addEvent calls grow the event
count by exactly one — the first inserts, the second is rejected as a
duplicate id; otherwise the count does not grow at all. -/
theorem addEvent_twice_adds_exactly_one (vf : Event → Bool) (my : Option String)
    (s : DataStore) (e : Event) (hvf : vf e = true)
    (hdup : List.lookup e.id s.events = none) :
    (s.addEvent vf my e).1 = true ∧
    ((s.addEvent vf my e).2.addEvent vf my e).1 = false ∧
    ((s.addEvent vf my e).2.addEvent vf my e).2.events.length = s.events.length + 1 := by
  obtain ⟨hacc, hev⟩ := addEvent_events_accepted vf my s e hdup hvf
  have hsome : (List.lookup e.id (s.addEvent vf my e).2.events).isSome = true := by
    rw [hev]
    exact lookup_append_self e.id e s.events
  have h2 := addEvent_reject vf my (s.addEvent vf my e).2 e (Or.inl hsome)
  refine ⟨hacc, ?_, ?_⟩
  · rw [h2]
  · rw [h2]
    dsimp only
    rw [hev]
    simp

/-- Witness for the amended C5 at concrete inputs. -/
theorem addEvent_twice_adds_exactly_one_witness :
    ((initStore 0).addEvent sampleVerifyTrue none sampleEvent1).1 = true ∧
    (((initStore 0).addEvent sampleVerifyTrue none sampleEvent1).2.addEvent sampleVerifyTrue
        none sampleEvent1).1 = false ∧
    (((initStore 0).addEvent sampleVerifyTrue none sampleEvent1).2.addEvent sampleVerifyTrue
        none sampleEvent1).2.events.length = (initStore 0).events.length + 1 :=
  addEvent_twice_adds_exactly_one sampleVerifyTrue none (initStore 0) sampleEvent1 rfl rfl

/-- Claim C8: addProfile is last-write-wins strictly by created_at — an
incoming profile not newer than the stored one is discarded with a false
result and no state change; a strictly newer or first profile replaces the
stored entry wholesale (not merged) with a true result. -/
theorem addProfile_lww :
    (∀ (s : DataStore) (pk : String) (p q : Profile),
        List.lookup pk s.profiles = some q → p.created_at ≤ q.created_at →
        s.addProfile pk p = (false, s)) ∧
    (∀ (s : DataStore) (pk : String) (p q : Profile),
        List.lookup pk s.profiles = some q → q.created_at < p.created_at →
        (s.addProfile pk p).1 = true ∧
        List.lookup pk (s.addProfile pk p).2.profiles = some p) ∧
    (∀ (s : DataStore) (pk : String) (p : Profile),
        List.lookup pk s.profiles = none →
        (s.addProfile pk p).1 = true ∧
        List.lookup pk (s.addProfile pk p).2.profiles = some p) := by
  refine ⟨?_, ?_, ?_⟩
  · intro s pk p q hlk hle
    unfold DataStore.addProfile
    rw [hlk]
    dsimp only
    rw [if_pos hle]
  · intro s pk p q hlk hlt
    unfold DataStore.addProfile
    rw [hlk]
    dsimp only
    rw [if_neg (by omega)]
    exact ⟨rfl, lookup_mapSet pk p s.profiles⟩
  · intro s pk p hlk
    unfold DataStore.addProfile
    rw [hlk]
    exact ⟨rfl, lookup_mapSet pk p s.profiles⟩

/-- Witness for C8 at concrete inputs: equal timestamp rejected, newer
accepted and replaced, absent accepted. -/
theorem addProfile_lww_witness :
    sampleStoreP.addProfile "alice" sampleProfile50 = (false, sampleStoreP) ∧
    ((sampleStoreP.addProfile "alice" sampleProfile60).1 = true ∧
      List.lookup "alice" (sampleStoreP.addProfile "alice" sampleProfile60).2.profiles =
        some sampleProfile60) ∧
    (((initStore 0).addProfile "bob" sampleProfile50).1 = true ∧
      List.lookup "bob" ((initStore 0).addProfile "bob" sampleProfile50).2.profiles =
        some sampleProfile50) :=
  ⟨addProfile_lww.1 sampleStoreP "alice" sampleProfile50 sampleProfile50 (by decide) (by decide),
   addProfile_lww.2.1 sampleStoreP "alice" sampleProfile60 sampleProfile50 (by decide)
      (by decide),
   addProfile_lww.2.2 (initStore 0) "bob" sampleProfile50 (by decide)⟩

/-- Claim C2: attemptReconnect schedules a reconnect only while the counter
is below the cap of 3, with delay min(1000 * 2 ^ attempts, 10000) computed
after incrementing the counter; an unexpected close schedules nothing once
the cap is reached; and three closes from a fresh manager schedule delays
2000, 4000, 8000 ms in that order with a fourth scheduling nothing. -/
theorem reconnect_backoff_schedule :
    (∀ m : RelayManager, m.reconnectAttempts < maxReconnectAttempts →
        m.attemptReconnect =
          ({ m with reconnectAttempts := m.reconnectAttempts + 1 },
            [RMAct.scheduleReconnect (min (1000 * 2 ^ (m.reconnectAttempts + 1)) 10000)])) ∧
    (∀ m : RelayManager, maxReconnectAttempts ≤ m.reconnectAttempts →
        m.attemptReconnect = (m, [])) ∧
    (∀ m : RelayManager, m.onClose.2 = [] ↔ maxReconnectAttempts ≤ m.reconnectAttempts) ∧
    closeDelays initRelayManager 4 = [2000, 4000, 8000] := by
  refine ⟨?_, ?_, ?_, by decide⟩
  · intro m h
    unfold RelayManager.attemptReconnect
    rw [if_neg (by omega)]
  · intro m h
    unfold RelayManager.attemptReconnect
    rw [if_pos h]
  · intro m
    unfold RelayManager.onClose RelayManager.attemptReconnect
    dsimp only
    by_cases h : m.reconnectAttempts ≥ maxReconnectAttempts
    · rw [if_pos h]
      simpa using h
    · rw [if_neg h]
      simpa using h

/-- Witness for C2: the fresh manager schedules a 2000 ms reconnect and a
manager at the cap schedules nothing. -/
theorem reconnect_backoff_schedule_witness :
    initRelayManager.attemptReconnect =
      ({ initRelayManager with reconnectAttempts := initRelayManager.reconnectAttempts + 1 },
        [RMAct.scheduleReconnect
          (min (1000 * 2 ^ (initRelayManager.reconnectAttempts + 1)) 10000)]) ∧
    ({ initRelayManager with reconnectAttempts := 3 } : RelayManager).attemptReconnect =
      ({ initRelayManager with reconnectAttempts := 3 }, []) :=
  ⟨reconnect_backoff_schedule.1 initRelayManager (by decide),
   reconnect_backoff_schedule.2.1 { initRelayManager with reconnectAttempts := 3 } (by decide)⟩

/-- Claim C10: getReactionCount is total — on every reachable store, for an
event id that no stored kind-6 or kind-7 event names in its first e-tag,
it returns the zero record rather than an absent value. -/
theorem getReactionCount_total_zero (vf : Event → Bool) (my : Option String) (now : Nat)
    (ops : List DSOp) (tid : String)
    (h : ∀ p ∈ (runDS vf my (initStore now) ops).events,
        (p.2.kind = 6 ∨ p.2.kind = 7) → firstTagVal p.2.tags "e" ≠ some tid) :
    (runDS vf my (initStore now) ops).getReactionCount tid = ⟨0, 0⟩ := by
  have hcov : reactionCovered (runDS vf my (initStore now) ops) := by
    refine runDS_reactionCovered vf my ops (initStore now) ?_
    intro t ht
    simp [initStore] at ht
  unfold DataStore.getReactionCount
  rcases hlk : List.lookup tid (runDS vf my (initStore now) ops).reactionCounts with _ | c
  · rfl
  · exfalso
    have hmem : tid ∈ (runDS vf my (initStore now) ops).reactionCounts.map Prod.fst :=
      List.mem_map.mpr ⟨(tid, c), lookup_mem hlk, rfl⟩
    obtain ⟨p, hp, hkind, htag⟩ := hcov tid hmem
    exact h p hp hkind htag

/-- Witness for C10: a store holding one kind-1 note returns the zero
record for an unreferenced id. -/
theorem getReactionCount_total_zero_witness :
    (runDS sampleVerifyTrue none (initStore 0) [DSOp.addEv sampleEvent1]).getReactionCount
      "t1" = ⟨0, 0⟩ :=
  getReactionCount_total_zero sampleVerifyTrue none 0 [DSOp.addEv sampleEvent1] "t1"
    (by decide)

theorem foldl_setAdd_fresh :
    ∀ (keys acc : List String), keys.Nodup → (∀ k ∈ keys, k ∉ acc) →
      keys.foldl setAdd acc = acc ++ keys := by
  intro keys
  induction keys with
  | nil => intro acc _ _; simp
  | cons k keys ih =>
    intro acc hnd hf
    rw [List.foldl_cons]
    have hk : k ∉ acc := hf k (List.mem_cons_self k keys)
    have hset : setAdd acc k = acc ++ [k] := by
      unfold setAdd
      rw [if_neg hk]
    have hfresh : ∀ k₂ ∈ keys, k₂ ∉ acc ++ [k] := by
      intro k₂ hk₂ hmem
      rcases List.mem_append.mp hmem with hmem | hmem
      · exact hf k₂ (List.mem_cons_of_mem _ hk₂) hmem
      · have hEq : k₂ = k := by simpa using hmem
        subst hEq
        exact (List.nodup_cons.mp hnd).1 hk₂
    rw [hset, ih (acc ++ [k]) (List.Nodup.of_cons hnd) hfresh]
    simp

theorem requestAll_fresh (ds : DataStore) (hprof : ds.profiles = []) :
    ∀ (keys q : List String) (t : Bool), (q ++ keys).Nodup →
      List.foldl (fun (pf : ProfileFetcher) pk => pf.request ds pk)
          (⟨q, [], t⟩ : ProfileFetcher) keys =
        (⟨q ++ keys, [], t || !keys.isEmpty⟩ : ProfileFetcher) := by
  intro keys
  induction keys with
  | nil => intro q t _; simp
  | cons k keys ih =>
    intro q t hnd
    rw [List.foldl_cons]
    have hkq : k ∉ q := by
      intro hmem
      exact (List.nodup_append.mp hnd).2.2 hmem (List.mem_cons_self k keys)
    have hreq : ProfileFetcher.request ⟨q, [], t⟩ ds k =
        (⟨q ++ [k], [], true⟩ : ProfileFetcher) := by
      unfold ProfileFetcher.request
      rw [hprof]
      simp [List.lookup, setAdd, hkq]
    rw [hreq]
    have hnd2 : ((q ++ [k]) ++ keys).Nodup := by simpa [List.append_assoc] using hnd
    rw [ih (q ++ [k]) true hnd2]
    simp

/-- The C1 batching scenario: request every key of the burst within one
debounce window, then let the window's timer fire. -/
def runBurst (ds : DataStore) (keys : List String) : ProfileFetcher × List ProfileFilter :=
  (List.foldl (fun pf pk => pf.request ds pk) initProfileFetcher keys).fireTimer

/-- Claim C1 (evaluation of the code at the failing input): with 150
distinct pubkeys requested in one debounce window, none stored or in
flight, the timer fire issues exactly ONE subscription — covering only the
first 100 keys — because flush clears the whole queue after slicing; the
remaining 50 keys end up neither queued, nor in flight, nor subscribed,
and no further flush is pending, refuting the claimed second
subscription. -/
theorem flush_drops_overflow_keys (ds : DataStore) (keys : List String)
    (hprof : ds.profiles = []) (hnd : keys.Nodup) (hlen : keys.length = 150) :
    (runBurst ds keys).2 = [{ kinds := [0], authors := keys.take 100 }] ∧
    (keys.take 100).length = 100 ∧
    (runBurst ds keys).1.queue = [] ∧
    (runBurst ds keys).1.inProgress = keys.take 100 ∧
    (∀ k ∈ keys.drop 100,
        k ∉ (runBurst ds keys).1.queue ∧ k ∉ (runBurst ds keys).1.inProgress) ∧
    (runBurst ds keys).1.fireTimer = ((runBurst ds keys).1, []) := by
  have hne : keys.isEmpty = false := by
    cases keys with
    | nil => simp at hlen
    | cons a l => rfl
  have hq := requestAll_fresh ds hprof keys [] false (by simpa using hnd)
  have htake : (keys.take 100).length = 100 := by
    rw [List.length_take, hlen]
    decide
  have htakeNd : (keys.take 100).Nodup := hnd.sublist (List.take_sublist 100 keys)
  have hprog : (keys.take 100).foldl setAdd [] = keys.take 100 := by
    have := foldl_setAdd_fresh (keys.take 100) [] htakeNd (by intro k _ hmem; simp at hmem)
    simpa using this
  have hrun : runBurst ds keys =
      (⟨[], keys.take 100, false⟩, [{ kinds := [0], authors := keys.take 100 }]) := by
    unfold runBurst initProfileFetcher
    rw [List.nil_append] at hq
    rw [hq]
    unfold ProfileFetcher.fireTimer
    simp only [hne, Bool.not_false, Bool.or_true, if_true]
    unfold ProfileFetcher.flush
    simp only [hne, Bool.false_eq_true, if_false]
    rw [show maxBatchSize = 100 from rfl, hprog]
  have hdisj : ∀ k ∈ keys.drop 100, k ∉ keys.take 100 := by
    intro k hkd hkt
    have hnd2 : (keys.take 100 ++ keys.drop 100).Nodup := by
      rw [List.take_append_drop]
      exact hnd
    exact (List.nodup_append.mp hnd2).2.2 hkt hkd
  refine ⟨by rw [hrun], htake, by rw [hrun], by rw [hrun], ?_, by rw [hrun]; rfl⟩
  intro k hk
  rw [hrun]
  exact ⟨by simp, hdisj k hk⟩

/-- 150 distinct concrete pubkeys. -/
def sampleKeys150 : List String := (List.range 150).map (fun i => "pk" ++ toString i)

/-- Witness for C1 at the concrete 150-key burst against an empty store. -/
theorem flush_drops_overflow_keys_witness :
    (runBurst (initStore 0) sampleKeys150).2 =
      [{ kinds := [0], authors := sampleKeys150.take 100 }] ∧
    (sampleKeys150.take 100).length = 100 ∧
    (runBurst (initStore 0) sampleKeys150).1.queue = [] := by
  have h := flush_drops_overflow_keys (initStore 0) sampleKeys150 rfl (by decide) (by decide)
  exact ⟨h.1, h.2.1, h.2.2.1⟩

/-- Claim C3 counterexample: a connect attempt whose handshake never
completes — the 5-second timeout fires, the code closes the socket, and
the close event is delivered without the socket ever having opened — still
schedules an automatic 2000 ms reconnect, because the onclose callback
runs attemptReconnect unconditionally.  Reconnection is therefore not
restricted to drops of previously-established connections. -/
theorem reconnect_on_initial_failure_counterexample :
    RMAct.scheduleReconnect 2000 ∈
      ((initRelayManager.connectStart "wss://r.example").runEvents
        [WsEvent.timeoutFire, WsEvent.closeEvt]).2 ∧
    WsEvent.openEvt ∉ [WsEvent.timeoutFire, WsEvent.closeEvt] := by
  decide

/-- Claim C3 amended: the close callback invokes attemptReconnect on every
socket close — including a close that follows a failed or timed-out initial
handshake — scheduling a reconnect exactly when the attempt counter is
below the cap; the initial failure is additionally surfaced to the connect
caller as a rejection (the error callback rejects, and the timeout closes
the not-yet-open socket and rejects). -/
theorem reconnect_on_any_close (m : RelayManager) :
    (m.reconnectAttempts < maxReconnectAttempts →
      (m.stepEvent WsEvent.closeEvt).2 =
        [RMAct.scheduleReconnect (min (1000 * 2 ^ (m.reconnectAttempts + 1)) 10000)]) ∧
    (maxReconnectAttempts ≤ m.reconnectAttempts →
      (m.stepEvent WsEvent.closeEvt).2 = []) ∧
    (m.stepEvent WsEvent.errorEvt).2 = [RMAct.rejectConnect] ∧
    (m.wsState ≠ some WsReadyState.openWs →
      (m.stepEvent WsEvent.timeoutFire).2 = [RMAct.wsClose, RMAct.rejectConnect]) := by
  refine ⟨?_, ?_, rfl, ?_⟩
  · intro h
    dsimp [RelayManager.stepEvent, RelayManager.onClose]
    unfold RelayManager.attemptReconnect
    rw [if_neg (Nat.not_le.mpr h)]
  · intro h
    dsimp [RelayManager.stepEvent, RelayManager.onClose]
    unfold RelayManager.attemptReconnect
    rw [if_pos h]
  · intro h
    dsimp [RelayManager.stepEvent, RelayManager.onConnectTimeout]
    rw [if_neg h]

/-- Witness for the amended C3 on a freshly connecting manager. -/
theorem reconnect_on_any_close_witness :
    ((initRelayManager.connectStart "wss://r.example").stepEvent WsEvent.closeEvt).2 =
      [RMAct.scheduleReconnect 2000] ∧
    ((initRelayManager.connectStart "wss://r.example").stepEvent WsEvent.timeoutFire).2 =
      [RMAct.wsClose, RMAct.rejectConnect] :=
  ⟨((reconnect_on_any_close (initRelayManager.connectStart "wss://r.example")).1
      (by decide)).trans (by decide),
   (reconnect_on_any_close (initRelayManager.connectStart "wss://r.example")).2.2.2
      (by decide)⟩

theorem sorted_sortByCreatedDesc (l : List Event) : (sortByCreatedDesc l).Sorted createdGe :=
  List.sorted_insertionSort createdGe l

theorem perm_sortByCreatedDesc (l : List Event) : (sortByCreatedDesc l).Perm l :=
  List.perm_insertionSort createdGe l

theorem filter_orderedInsert_eq (a : Event) (t : Nat) (ht : a.created_at = t) :
    ∀ l : List Event,
      (List.orderedInsert createdGe a l).filter (fun e => e.created_at == t) =
        a :: l.filter (fun e => e.created_at == t) := by
  intro l
  induction l with
  | nil => simp [List.orderedInsert, ht]
  | cons b l ih =>
    rw [List.orderedInsert]
    by_cases h : createdGe a b
    · rw [if_pos h]
      simp [List.filter_cons, ht]
    · rw [if_neg h]
      have hb : (b.created_at == t) = false := by
        rw [beq_eq_false_iff_ne]
        intro hEq
        exact h (show b.created_at ≤ a.created_at by rw [hEq, ht])
      simp [List.filter_cons, hb, ih]

theorem filter_orderedInsert_ne (a : Event) (t : Nat) (ht : ¬ a.created_at = t) :
    ∀ l : List Event,
      (List.orderedInsert createdGe a l).filter (fun e => e.created_at == t) =
        l.filter (fun e => e.created_at == t) := by
  have ha : (a.created_at == t) = false := beq_eq_false_iff_ne.mpr ht
  intro l
  induction l with
  | nil => simp [List.orderedInsert, ha]
  | cons b l ih =>
    rw [List.orderedInsert]
    by_cases h : createdGe a b
    · rw [if_pos h]
      simp [List.filter_cons, ha]
    · rw [if_neg h]
      simp [List.filter_cons, ih]

theorem filter_sortByCreatedDesc (t : Nat) :
    ∀ l : List Event,
      (sortByCreatedDesc l).filter (fun e => e.created_at == t) =
        l.filter (fun e => e.created_at == t) := by
  intro l
  induction l with
  | nil => rfl
  | cons a l ih =>
    rw [sortByCreatedDesc, List.insertionSort] at *
    by_cases ha : a.created_at = t
    · rw [filter_orderedInsert_eq a t ha, ih]
      simp [List.filter_cons, ha]
    · rw [filter_orderedInsert_ne a t ha, ih]
      have ha2 : (a.created_at == t) = false := beq_eq_false_iff_ne.mpr ha
      simp [List.filter_cons, ha2]

theorem keys_filterMap_lookup {α : Type} :
    ∀ (m : List (String × α)), (m.map Prod.fst).Nodup →
      List.filterMap (fun id => List.lookup id m) (m.map Prod.fst) = m.map Prod.snd := by
  intro m
  induction m with
  | nil => intro _; rfl
  | cons p m ih =>
    intro h
    obtain ⟨k, v⟩ := p
    rw [List.map_cons] at h ⊢
    have hnotin : k ∉ m.map Prod.fst := (List.nodup_cons.mp h).1
    rw [List.filterMap_cons]
    have hk : List.lookup k ((k, v) :: m) = some v := by simp [List.lookup]
    rw [hk]
    have hcong : List.filterMap (fun id => List.lookup id ((k, v) :: m)) (m.map Prod.fst) =
        List.filterMap (fun id => List.lookup id m) (m.map Prod.fst) := by
      refine List.filterMap_congr ?_
      intro id hid
      rw [List.lookup]
      have : (id == k) = false := beq_eq_false_iff_ne.mpr (fun hEq => hnotin (hEq ▸ hid))
      simp [this]
    rw [hcong, ih (List.nodup_cons.mp h).2]
    simp

theorem sublist_filterMap_lookup {α : Type} (m : List (String × α)) (ids : List String)
    (hnd : (m.map Prod.fst).Nodup) (hsub : ids.Sublist (m.map Prod.fst)) :
    (ids.filterMap (fun id => List.lookup id m)).Sublist (m.map Prod.snd) := by
  have h1 := hsub.filterMap (fun id => List.lookup id m)
  rw [keys_filterMap_lookup m hnd] at h1
  exact h1

/-- Store well-formedness: events are keyed by their own id, keys are
unique, and the per-category id sets list ids in store insertion order. -/
def DataStore.WF (s : DataStore) : Prop :=
  (∀ p ∈ s.events, p.2.id = p.1) ∧
  (s.events.map Prod.fst).Nodup ∧
  s.myPostIds.Sublist (s.events.map Prod.fst) ∧
  s.receivedLikeIds.Sublist (s.events.map Prod.fst)

theorem tabEvents_sublist (s : DataStore) (tab : Tab) (fg : Bool) (hwf : s.WF) :
    (s.tabEvents tab fg).Sublist (s.events.map Prod.snd) := by
  obtain ⟨hkeys, hnd, hmp, hrl⟩ := hwf
  have hbase : ∀ i0 : List String, i0.Sublist (s.events.map Prod.fst) →
      ((if fg && tab ≠ Tab.likes then
          i0.filter (fun id => ((List.lookup id s.events).map hasFlowgazerTag).getD false)
        else i0).filterMap
          (fun id => List.lookup id s.events)).Sublist (s.events.map Prod.snd) := by
    intro i0 h0
    refine sublist_filterMap_lookup s.events _ hnd ?_
    by_cases hfg : (fg && tab ≠ Tab.likes) = true
    · rw [if_pos hfg]
      exact (List.filter_sublist i0).trans h0
    · rw [if_neg hfg]
      exact h0
  unfold DataStore.tabEvents
  cases tab
  · exact hbase _ ((List.filter_sublist _))
  · exact hbase _ ((List.filter_sublist _))
  · exact hbase _ hmp
  · exact hbase _ hrl

theorem visCandidates_sublist (vs : ViewState) (ds : DataStore) (tab : Tab)
    (opts : FilterOptions) (hnd : (ds.events.map Prod.fst).Nodup)
    (hsub : (vs.viewSet tab).Sublist (ds.events.map Prod.fst)) :
    (vs.visCandidates ds tab opts).Sublist (ds.events.map Prod.snd) := by
  unfold ViewState.visCandidates
  dsimp only
  have h0 : ((vs.viewSet tab).filterMap
      (fun id => List.lookup id ds.events)).Sublist (ds.events.map Prod.snd) :=
    sublist_filterMap_lookup ds.events _ hnd hsub
  have hstep : ∀ (l l₂ : List Event) (p : Event → Bool), l.Sublist l₂ →
      (l.filter p).Sublist l₂ := fun l l₂ p h => (List.filter_sublist l).trans h
  by_cases hfg : (opts.flowgazerOnly && tab ≠ Tab.likes) = true
  · rw [if_pos hfg]
    rcases opts.authors with _ | authors
    · exact hstep _ _ _ (hstep _ _ _ h0)
    · dsimp only
      by_cases hl : authors.length > 0
      · rw [if_pos hl]
        exact hstep _ _ _ (hstep _ _ _ (hstep _ _ _ h0))
      · rw [if_neg hl]
        exact hstep _ _ _ (hstep _ _ _ h0)
  · rw [if_neg hfg]
    rcases opts.authors with _ | authors
    · exact hstep _ _ _ h0
    · dsimp only
      by_cases hl : authors.length > 0
      · rw [if_pos hl]
        exact hstep _ _ _ (hstep _ _ _ h0)
      · rw [if_neg hl]
        exact hstep _ _ _ h0

/-- A second concrete kind-1 note sharing created_at 100 with sampleEvent1. -/
def sampleEvent2 : Event :=
  { id := "id2", pubkey := "bob", kind := 1, created_at := 100, content := "tie",
    tags := [], sig := "sig2" }

/-- A store holding sampleEvent1 then sampleEvent2 (equal created_at). -/
def sampleStore2 : DataStore :=
  (((initStore 200).addEvent sampleVerifyTrue none sampleEvent1).2.addEvent
    sampleVerifyTrue none sampleEvent2).2

/-- Claim C9: both timeline queries return events sorted non-increasing by
created_at, the sort is stable — for every timestamp, the subsequence of
returned events with that created_at equals the corresponding subsequence
of the pre-sort candidate list — and on a well-formed store the candidate
list follows store insertion order (a sublist of the event table), so of
two returned events sharing a created_at the one inserted first appears
first. -/
theorem query_sorted_and_stable :
    (∀ (s : DataStore) (tab : Tab) (fg : Bool),
        (s.getEventsByTab tab fg).Sorted createdGe) ∧
    (∀ (s : DataStore) (tab : Tab) (fg : Bool) (t : Nat),
        (s.getEventsByTab tab fg).filter (fun e => e.created_at == t) =
          (s.tabEvents tab fg).filter (fun e => e.created_at == t)) ∧
    (∀ (s : DataStore) (tab : Tab) (fg : Bool), s.WF →
        (s.tabEvents tab fg).Sublist (s.events.map Prod.snd)) ∧
    (∀ (vs : ViewState) (ds : DataStore) (tab : Tab) (opts : FilterOptions),
        (vs.getVisibleEvents ds tab opts).Sorted createdGe) ∧
    (∀ (vs : ViewState) (ds : DataStore) (tab : Tab) (opts : FilterOptions) (t : Nat),
        (vs.getVisibleEvents ds tab opts).filter (fun e => e.created_at == t) =
          (vs.visCandidates ds tab opts).filter (fun e => e.created_at == t)) ∧
    (∀ (vs : ViewState) (ds : DataStore) (tab : Tab) (opts : FilterOptions),
        (ds.events.map Prod.fst).Nodup →
        (vs.viewSet tab).Sublist (ds.events.map Prod.fst) →
        (vs.visCandidates ds tab opts).Sublist (ds.events.map Prod.snd)) := by
  refine ⟨?_, ?_, ?_, ?_, ?_, ?_⟩
  · intro s tab fg
    exact sorted_sortByCreatedDesc _
  · intro s tab fg t
    exact filter_sortByCreatedDesc t _
  · intro s tab fg hwf
    exact tabEvents_sublist s tab fg hwf
  · intro vs ds tab opts
    exact sorted_sortByCreatedDesc _
  · intro vs ds tab opts t
    exact filter_sortByCreatedDesc t _
  · intro vs ds tab opts hnd hsub
    exact visCandidates_sublist vs ds tab opts hnd hsub

/-- Witness for C9 on a concrete two-event store with tied created_at. -/
theorem query_sorted_and_stable_witness :
    (sampleStore2.tabEvents Tab.global false).Sublist (sampleStore2.events.map Prod.snd) ∧
    (initViewState.visCandidates sampleStore2 Tab.global defaultFilterOptions).Sublist
      (sampleStore2.events.map Prod.snd) ∧
    (sampleStore2.getEventsByTab Tab.global false).filter
        (fun e => e.created_at == 100) =
      (sampleStore2.tabEvents Tab.global false).filter (fun e => e.created_at == 100) :=
  ⟨query_sorted_and_stable.2.2.1 sampleStore2 Tab.global false
      (by refine ⟨by decide, by decide, ?_, ?_⟩ <;> decide),
   query_sorted_and_stable.2.2.2.2.2 initViewState sampleStore2 Tab.global
      defaultFilterOptions (by decide) (by decide),
   query_sorted_and_stable.2.1 sampleStore2 Tab.global false 100⟩

theorem count_filterMap_lookup_nodup (m : List (String × Event))
    (hkeys : ∀ p ∈ m, p.2.id = p.1) (e : Event) :
    ∀ (ids : List String), ids.Nodup →
      (ids.filterMap (fun id => List.lookup id m)).count e =
        if e.id ∈ ids ∧ List.lookup e.id m = some e then 1 else 0 := by
  intro ids
  induction ids with
  | nil => intro _; simp
  | cons id ids ih =>
    intro hnd
    obtain ⟨hnotin, hnd2⟩ := List.nodup_cons.mp hnd
    rw [List.filterMap_cons]
    rcases hlk : List.lookup id m with _ | v
    · rw [ih hnd2]
      by_cases hid : e.id = id
      · rw [hid]
        simp [hlk]
      · simp [hid]
    · dsimp only
      have hv : v.id = id := hkeys (id, v) (lookup_mem hlk)
      by_cases hve : v = e
      · subst hve
        have hnotin2 : ¬ v.id ∈ ids := by
          rw [hv]
          exact hnotin
        rw [List.count_cons_self, ih hnd2]
        simp [hv, hlk, hnotin2, hnotin]
      · rw [List.count_cons_of_ne (fun h => hve h.symm), ih hnd2]
        by_cases hid : e.id = id
        · have hne : ¬ List.lookup e.id m = some e := by
            rw [hid, hlk]
            intro hcontra
            exact hve (by injection hcontra)
          simp [hne]
        · simp [List.mem_cons, hid]

theorem visCandidates_default (vs : ViewState) (ds : DataStore) (tab : Tab) :
    vs.visCandidates ds tab defaultFilterOptions =
      ((vs.viewSet tab).filterMap (fun id => List.lookup id ds.events)).filter
        (fun ev => (List.lookup ev.pubkey ds.profiles).isSome) := rfl

/-- The DataStore/ViewState scenario for the visibility claims: a kind-1
note stored while its author's profile is absent, then the profile
arriving. -/
def sampleDS1 : DataStore := ((initStore 0).addEvent sampleVerifyTrue none sampleEvent1).2

/-- ViewState after routing sampleEvent1 with its author profile absent. -/
def sampleVS1 : ViewState := initViewState.addEvent sampleDS1 none sampleEvent1

/-- The store after the author's profile arrives. -/
def sampleDS2 : DataStore := (sampleDS1.addProfile "alice" sampleProfile50).2

/-- Claim C6: an event whose author's profile is absent from the store is
excluded from every visible-events query result; once the profile is
stored, in every view whose membership set contains the event's id the
event appears in the default query results exactly once, never
duplicated. -/
theorem visibility_gating :
    (∀ (vs : ViewState) (ds : DataStore) (tab : Tab) (opts : FilterOptions) (e : Event),
        List.lookup e.pubkey ds.profiles = none →
        e ∉ vs.getVisibleEvents ds tab opts) ∧
    (∀ (vs : ViewState) (ds : DataStore) (tab : Tab) (e : Event),
        (∀ p ∈ ds.events, p.2.id = p.1) →
        (vs.viewSet tab).Nodup →
        e.id ∈ vs.viewSet tab →
        List.lookup e.id ds.events = some e →
        (List.lookup e.pubkey ds.profiles).isSome = true →
        (vs.getVisibleEvents ds tab defaultFilterOptions).count e = 1) := by
  constructor
  · intro vs ds tab opts e hnone hmem
    unfold ViewState.getVisibleEvents at hmem
    have hmem2 : e ∈ vs.visCandidates ds tab opts :=
      (perm_sortByCreatedDesc _).subset hmem
    unfold ViewState.visCandidates at hmem2
    dsimp only at hmem2
    have hpred := List.of_mem_filter hmem2
    rw [hnone] at hpred
    simp at hpred
  · intro vs ds tab e hkeys hnd hmem hlk hprof
    unfold ViewState.getVisibleEvents
    have hcf : ((List.filterMap (fun id => List.lookup id ds.events)
          (vs.viewSet tab)).filter
            (fun ev => (List.lookup ev.pubkey ds.profiles).isSome)).count e =
        (List.filterMap (fun id => List.lookup id ds.events) (vs.viewSet tab)).count e :=
      List.count_filter (by simpa using hprof)
    rw [(perm_sortByCreatedDesc _).count_eq, visCandidates_default, hcf,
      count_filterMap_lookup_nodup ds.events hkeys e (vs.viewSet tab) hnd]
    simp [hmem, hlk]

/-- Witness for C6 at the concrete scenario: the note stored before its
author's profile is invisible; after the profile arrives it appears
exactly once in the global view. -/
theorem visibility_gating_witness :
    sampleEvent1 ∉ sampleVS1.getVisibleEvents sampleDS1 Tab.global defaultFilterOptions ∧
    (sampleVS1.getVisibleEvents sampleDS2 Tab.global defaultFilterOptions).count
      sampleEvent1 = 1 :=
  ⟨visibility_gating.1 sampleVS1 sampleDS1 Tab.global defaultFilterOptions sampleEvent1
      (by decide),
   visibility_gating.2 sampleVS1 sampleDS2 Tab.global sampleEvent1 (by decide) (by decide)
      (by decide) (by decide) (by decide)⟩

/-- Claim C7 counterexample: an event id can sit in the pending set while
its event is nonetheless returned by the visible-events query — the query
filters on profile presence, never on the pending set — so pending-set
membership is not what excludes stored events.  Here the profile arrived
via addProfile without onProfileFetched, a path the ProfileFetcher handler
actually takes. -/
theorem pending_not_sole_determinant_counterexample :
    "id1" ∈ sampleVS1.pendingEventIds ∧
    sampleEvent1 ∈ sampleVS1.getVisibleEvents sampleDS2 Tab.global defaultFilterOptions := by
  decide

/-- Claim C7 amended: visibility of a stored event in a view is determined
by profile presence, not by the pending set: under the default options an
event is returned exactly when its id is in the view's membership set, it
resolves in the event table, and its author's profile is stored.  The
pending set only tracks events awaiting profiles: onProfileFetched removes
from it exactly the ids whose stored event is authored by the fetched
pubkey, and nothing else removes pending ids. -/
theorem visibility_profile_determinant :
    (∀ (vs : ViewState) (ds : DataStore) (tab : Tab) (e : Event),
        (∀ p ∈ ds.events, p.2.id = p.1) →
        (e ∈ vs.getVisibleEvents ds tab defaultFilterOptions ↔
          e.id ∈ vs.viewSet tab ∧ List.lookup e.id ds.events = some e ∧
            (List.lookup e.pubkey ds.profiles).isSome = true)) ∧
    (∀ (vs : ViewState) (ds : DataStore) (pk : String),
        (vs.onProfileFetched ds pk).1.pendingEventIds =
          vs.pendingEventIds.filter (fun id => !(pendingMatches ds pk id))) := by
  constructor
  · intro vs ds tab e hkeys
    unfold ViewState.getVisibleEvents
    rw [(perm_sortByCreatedDesc _).mem_iff, visCandidates_default]
    constructor
    · intro hmem
      obtain ⟨hmem1, hpred⟩ := List.mem_filter.mp hmem
      obtain ⟨id, hid, hlk⟩ := List.mem_filterMap.mp hmem1
      have hEq : e.id = id := hkeys (id, e) (lookup_mem hlk)
      rw [hEq]
      exact ⟨hid, hlk, hpred⟩
    · rintro ⟨hmem, hlk, hprof⟩
      exact List.mem_filter.mpr ⟨List.mem_filterMap.mpr ⟨e.id, hmem, hlk⟩, hprof⟩
  · intro vs ds pk
    rfl

/-- Witness for the amended C7 at the concrete scenario. -/
theorem visibility_profile_determinant_witness :
    sampleEvent1 ∈ sampleVS1.getVisibleEvents sampleDS2 Tab.global defaultFilterOptions ∧
    (sampleVS1.onProfileFetched sampleDS2 "alice").1.pendingEventIds = [] :=
  ⟨(visibility_profile_determinant.1 sampleVS1 sampleDS2 Tab.global sampleEvent1
      (by decide)).mpr ⟨by decide, by decide, by decide⟩,
   (visibility_profile_determinant.2 sampleVS1 sampleDS2 "alice").trans (by decide)⟩
